import Mathlib

/-!
Verification of the control-message (ancillary data) helpers and the
descriptor-set bitmap helpers of the `linux-raw-sys` crate (sw_64 target),
as implemented in `src/lib.rs` (`cmsg_macros` and `select_macros` modules).

Addresses and lengths are modelled as natural numbers; the 32-bit wrapping
arithmetic of `c_uint` is made explicit with `% 2^32` and a 32-bit mask,
and the `cmsg_len as c_uint` truncating cast is made explicit with `% 2^32`.
A null pointer is the address `0`; a null `*mut cmsghdr` result is `none`.
-/

/-- Size in bytes of `c_long` on the sw_64 (64-bit) target.
Modelled from the spec: the generated layout module (`sw_64/general.rs`) is
not present in the sources; the spec fixes the alignment word at the width
of the platform long, 8 bytes on 64-bit targets. -/
def c_long_size : Nat := 8

/-- Size in bytes of `cmsghdr`.
Modelled from the spec: `cmsg_len` is unsigned of platform word width
(8 bytes on this 64-bit target) and `cmsg_level`, `cmsg_type` are `c_int`
(4 bytes each), giving 16 bytes. -/
def sizeof_cmsghdr : Nat := 16

/-- Size in bytes of `__kernel_fd_set`.
Modelled from the spec: a fixed bit array of capacity 1024 bits, hence
128 bytes. -/
def sizeof_fd_set : Nat := 128

/-- The message envelope `msghdr`, restricted to the two fields the
traversal reads: `msg_control` (address of the control buffer) and
`msg_controllen` (its declared byte length). -/
structure msghdr where
  msg_control : Nat
  msg_controllen : Nat

/-- Rust `CMSG_ALIGN(len: c_uint) -> c_uint`:
`(len + c_long_size - 1) & !(c_long_size - 1)` in wrapping 32-bit
arithmetic. The complement `!` of a `u32` is modelled by xor with
`2^32 - 1`. -/
def CMSG_ALIGN (len : Nat) : Nat :=
  ((len + c_long_size - 1) % 2 ^ 32) &&& ((2 ^ 32 - 1) ^^^ (c_long_size - 1))

/-- Rust `CMSG_DATA(cmsg)`: the address one `cmsghdr` past the record. -/
def CMSG_DATA (cmsg : Nat) : Nat :=
  cmsg + sizeof_cmsghdr

/-- Rust `CMSG_SPACE(len: c_uint) -> c_uint` (wrapping 32-bit addition). -/
def CMSG_SPACE (len : Nat) : Nat :=
  (sizeof_cmsghdr + CMSG_ALIGN len) % 2 ^ 32

/-- Rust `CMSG_LEN(len: c_uint) -> c_uint` (wrapping 32-bit addition). -/
def CMSG_LEN (len : Nat) : Nat :=
  (sizeof_cmsghdr + len) % 2 ^ 32

/-- Rust `CMSG_FIRSTHDR(mhdr)`: null when the declared control length is
shorter than one header, otherwise the `msg_control` address itself. -/
def CMSG_FIRSTHDR (mhdr : msghdr) : Option Nat :=
  if mhdr.msg_controllen < sizeof_cmsghdr then none
  else some mhdr.msg_control

/-- Rust `CMSG_NXTHDR(mhdr, cmsg)`. `cmsg` is the current record's address
and `cmsg_len` the value of its `cmsg_len` field (a `c_ulong`, read from
memory by the source). The source computes
`next_cmsg = cmsg + CMSG_ALIGN(cmsg_len as c_uint)` (the cast truncates,
hence `% 2^32`), `max = msg_control + msg_controllen`, and returns null
when `cmsg_len < size_of(cmsghdr)`, or when `next_cmsg.add(1)` (one whole
`cmsghdr`, 16 bytes) exceeds `max`, or when
`next_cmsg + CMSG_ALIGN(cmsg_len)` exceeds `max`; otherwise `next_cmsg`. -/
def CMSG_NXTHDR (mhdr : msghdr) (cmsg : Nat) (cmsg_len : Nat) : Option Nat :=
  let next_cmsg := cmsg + CMSG_ALIGN (cmsg_len % 2 ^ 32)
  let max := mhdr.msg_control + mhdr.msg_controllen
  if cmsg_len < sizeof_cmsghdr then none
  else if next_cmsg + sizeof_cmsghdr > max ∨
      next_cmsg + CMSG_ALIGN (cmsg_len % 2 ^ 32) > max then none
  else some next_cmsg

/-- One traversal step: from an optional current record address, read its
`cmsg_len` through `load` (the contents of the caller's buffer at each
header address) and apply `CMSG_NXTHDR`. -/
def cmsgStep (load : Nat → Nat) (m : msghdr) (s : Option Nat) : Option Nat :=
  s.bind fun a => CMSG_NXTHDR m a (load a)

/-- Fuel-indexed collection of the record addresses visited starting from
an optional record address. -/
def cmsgListAux (load : Nat → Nat) (m : msghdr) : Nat → Option Nat → List Nat
  | 0, _ => []
  | _ + 1, none => []
  | fuel + 1, some a => a :: cmsgListAux load m fuel (CMSG_NXTHDR m a (load a))

/-- The record addresses visited by a traversal that starts at
`CMSG_FIRSTHDR` and repeatedly applies `CMSG_NXTHDR`. -/
def cmsgRecords (load : Nat → Nat) (m : msghdr) (fuel : Nat) : List Nat :=
  cmsgListAux load m fuel (CMSG_FIRSTHDR m)

/-- A descriptor-set buffer, modelled as its byte contents: a map from byte
index to byte value. Byte indices at or beyond `sizeof_fd_set` are outside
the `__kernel_fd_set` object and are never addressed by in-range
descriptor indices. -/
def fdSetBytes : Type := Nat → Nat

/-- Rust `FD_SET(fd: c_int, set)`: for `fd >= 0`, or the bit `1 << (fd % 8)`
into byte `fd / 8`; a negative `fd` leaves the set untouched. The
`fd / 8` and `fd % 8` casts are evaluated only under `0 ≤ fd`, where Rust
and natural-number division and remainder agree. -/
def FD_SET (fd : Int) (set : fdSetBytes) : fdSetBytes :=
  if 0 ≤ fd then
    fun i => if i = fd.toNat / 8 then set i ||| (1 <<< (fd.toNat % 8)) else set i
  else set

/-- Rust `FD_CLR(fd: c_int, set)`: for `fd >= 0`, and byte `fd / 8` with
`!(1 << (fd % 8))` (complement in `u8`, modelled by xor with 255); a
negative `fd` leaves the set untouched. -/
def FD_CLR (fd : Int) (set : fdSetBytes) : fdSetBytes :=
  if 0 ≤ fd then
    fun i => if i = fd.toNat / 8 then set i &&& (255 ^^^ (1 <<< (fd.toNat % 8))) else set i
  else set

/-- Rust `FD_ISSET(fd: c_int, set)`: for `fd >= 0`, test the bit
`1 << (fd % 8)` of byte `fd / 8`; for negative `fd`, `false`. -/
def FD_ISSET (fd : Int) (set : fdSetBytes) : Bool :=
  if 0 ≤ fd then set (fd.toNat / 8) &&& (1 <<< (fd.toNat % 8)) != 0
  else false

/-- Rust `FD_ZERO(set)`: write zero over all `size_of(__kernel_fd_set)`
bytes of the set. -/
def FD_ZERO (set : fdSetBytes) : fdSetBytes :=
  fun i => if i < sizeof_fd_set then 0 else set i

/-- The all-zero descriptor-set buffer. -/
def zeroSet : fdSetBytes := fun _ => 0

/-- A descriptor-set buffer with every bit set. -/
def fullSet : fdSetBytes := fun _ => 255

/-! ### Arithmetic characterisation of CMSG_ALIGN -/

/-- Masking a 32-bit value with `0xFFFF_FFF8` clears its three low bits. -/
theorem land_mask_high (x : Nat) (hx : x < 2 ^ 32) :
    x &&& (2 ^ 32 - 8) = x / 8 * 8 := by
  have h8 : (2 ^ 32 - 8 : Nat) = (2 ^ 29 - 1) <<< 3 := by decide
  have hx3 : x / 8 * 8 = (x >>> 3) <<< 3 := by
    rw [Nat.shiftRight_eq_div_pow, Nat.shiftLeft_eq]
  rw [h8, hx3]
  apply Nat.eq_of_testBit_eq
  intro i
  rw [Nat.testBit_and, Nat.testBit_shiftLeft, Nat.testBit_shiftLeft,
    Nat.testBit_shiftRight, Nat.testBit_two_pow_sub_one]
  by_cases h3 : 3 ≤ i
  · by_cases h32 : i < 32
    · have h29 : i - 3 < 29 := by omega
      have hadd : 3 + (i - 3) = i := by omega
      simp [h3, h29, hadd]
    · have hxi : x.testBit i = false := by
        apply Nat.testBit_lt_two_pow
        exact lt_of_lt_of_le hx (Nat.pow_le_pow_right (by norm_num) (by omega))
      have h29 : ¬ (i - 3 < 29) := by omega
      simp [h3, h29, hxi]
  · simp [h3]

/-- Unfolding of `CMSG_ALIGN` into division arithmetic. -/
theorem CMSG_ALIGN_eq (len : Nat) :
    CMSG_ALIGN len = ((len + 7) % 2 ^ 32) / 8 * 8 := by
  unfold CMSG_ALIGN c_long_size
  have hmask : ((2 ^ 32 - 1 : Nat) ^^^ (8 - 1)) = 2 ^ 32 - 8 := by decide
  have harg : len + 8 - 1 = len + 7 := by omega
  rw [harg, hmask]
  exact land_mask_high _ (Nat.mod_lt _ (by norm_num))

/-- Rounding up cannot decrease the length while the 32-bit addition does
not wrap. -/
theorem CMSG_ALIGN_ge (len : Nat) (h : len ≤ 2 ^ 32 - 8) :
    len ≤ CMSG_ALIGN len := by
  rw [CMSG_ALIGN_eq]
  have hpow : (2 : Nat) ^ 32 = 4294967296 := by norm_num
  rw [hpow]
  rw [hpow] at h
  omega

/-- The truncating cast commutes with `CMSG_ALIGN`. -/
theorem CMSG_ALIGN_mod (len : Nat) :
    CMSG_ALIGN (len % 2 ^ 32) = CMSG_ALIGN len := by
  rw [CMSG_ALIGN_eq, CMSG_ALIGN_eq]
  have hpow : (2 : Nat) ^ 32 = 4294967296 := by norm_num
  rw [hpow]
  omega

/-- Alignment is idempotent (in full wrapping 32-bit arithmetic). -/
theorem CMSG_ALIGN_idem (len : Nat) :
    CMSG_ALIGN (CMSG_ALIGN len) = CMSG_ALIGN len := by
  rw [CMSG_ALIGN_eq, CMSG_ALIGN_eq]
  have hpow : (2 : Nat) ^ 32 = 4294967296 := by norm_num
  rw [hpow]
  omega

/-! ### Inversion helpers for the traversal functions -/

/-- What a successful `CMSG_FIRSTHDR` tells us. -/
theorem CMSG_FIRSTHDR_some (m : msghdr) (r : Nat)
    (h : CMSG_FIRSTHDR m = some r) :
    r = m.msg_control ∧ sizeof_cmsghdr ≤ m.msg_controllen := by
  unfold CMSG_FIRSTHDR at h
  by_cases hlt : m.msg_controllen < sizeof_cmsghdr
  · rw [if_pos hlt] at h
    exact absurd h (by simp)
  · rw [if_neg hlt] at h
    exact ⟨(Option.some_inj.mp h).symm, Nat.le_of_not_lt hlt⟩

/-- What a successful `CMSG_NXTHDR` tells us: the result address, the
well-formedness of the current length, and the two bounds checks. -/
theorem CMSG_NXTHDR_some (m : msghdr) (cmsg cmsg_len r : Nat)
    (h : CMSG_NXTHDR m cmsg cmsg_len = some r) :
    r = cmsg + CMSG_ALIGN (cmsg_len % 2 ^ 32) ∧
    sizeof_cmsghdr ≤ cmsg_len ∧
    r + sizeof_cmsghdr ≤ m.msg_control + m.msg_controllen ∧
    r + CMSG_ALIGN (cmsg_len % 2 ^ 32) ≤ m.msg_control + m.msg_controllen := by
  unfold CMSG_NXTHDR at h
  simp only [] at h
  by_cases h1 : cmsg_len < sizeof_cmsghdr
  · rw [if_pos h1] at h
    exact absurd h (by simp)
  · rw [if_neg h1] at h
    by_cases h2 : cmsg + CMSG_ALIGN (cmsg_len % 2 ^ 32) + sizeof_cmsghdr >
          m.msg_control + m.msg_controllen ∨
        cmsg + CMSG_ALIGN (cmsg_len % 2 ^ 32) + CMSG_ALIGN (cmsg_len % 2 ^ 32) >
          m.msg_control + m.msg_controllen
    · rw [if_pos h2] at h
      exact absurd h (by simp)
    · rw [if_neg h2] at h
      have hr : r = cmsg + CMSG_ALIGN (cmsg_len % 2 ^ 32) := (Option.some_inj.mp h).symm
      push_neg at h2
      refine ⟨hr, Nat.le_of_not_lt h1, ?_, ?_⟩
      · rw [hr]; exact h2.1
      · rw [hr]; exact h2.2

/-- A successful step advances by at least one header size, provided the
current record's length is small enough that the 32-bit alignment
computation neither truncates nor wraps. -/
theorem CMSG_NXTHDR_progress (m : msghdr) (cmsg cmsg_len r : Nat)
    (hlen : cmsg_len ≤ 2 ^ 32 - 8)
    (h : CMSG_NXTHDR m cmsg cmsg_len = some r) :
    cmsg + sizeof_cmsghdr ≤ r := by
  obtain ⟨hr, hwf, _, _⟩ := CMSG_NXTHDR_some m cmsg cmsg_len r h
  have hmod : cmsg_len % 2 ^ 32 = cmsg_len :=
    Nat.mod_eq_of_lt (by omega)
  have halign : cmsg_len ≤ CMSG_ALIGN cmsg_len := CMSG_ALIGN_ge cmsg_len hlen
  rw [hr, hmod]
  have : sizeof_cmsghdr ≤ CMSG_ALIGN cmsg_len := le_trans hwf halign
  omega

/-- Iterating a traversal step on an already-terminated state stays
terminated. -/
theorem cmsgStep_iterate_none (load : Nat → Nat) (m : msghdr) (k : Nat) :
    (cmsgStep load m)^[k] none = none := by
  induction k with
  | zero => rfl
  | succ n ih =>
    rw [Function.iterate_succ_apply, cmsgStep]
    exact ih

/-- Invariant of the iterated traversal: after `k` successful steps from
the first header, the current address has advanced at least `k` header
sizes past the start of the buffer and still has room for a header. -/
theorem cmsgStep_iterate_invariant (load : Nat → Nat) (m : msghdr)
    (hload : ∀ a, load a ≤ 2 ^ 32 - 8) :
    ∀ k a, (cmsgStep load m)^[k] (CMSG_FIRSTHDR m) = some a →
      m.msg_control + sizeof_cmsghdr * k ≤ a ∧
      a + sizeof_cmsghdr ≤ m.msg_control + m.msg_controllen := by
  intro k
  induction k with
  | zero =>
    intro a h
    simp only [Function.iterate_zero, id] at h
    obtain ⟨ha, hlen⟩ := CMSG_FIRSTHDR_some m a h
    subst ha
    constructor
    · omega
    · omega
  | succ n ih =>
    intro a h
    rw [Function.iterate_succ_apply'] at h
    rcases hprev : (cmsgStep load m)^[n] (CMSG_FIRSTHDR m) with _ | b
    · rw [hprev] at h
      exact absurd h (by simp [cmsgStep])
    · rw [hprev] at h
      have hstep : CMSG_NXTHDR m b (load b) = some a := h
      obtain ⟨hb1, hb2⟩ := ih b hprev
      have hprog : b + sizeof_cmsghdr ≤ a :=
        CMSG_NXTHDR_progress m b (load b) a (hload b) hstep
      obtain ⟨_, _, hbound, _⟩ := CMSG_NXTHDR_some m b (load b) a hstep
      constructor
      · have : sizeof_cmsghdr * (n + 1) = sizeof_cmsghdr * n + sizeof_cmsghdr := by ring
        omega
      · exact hbound

/-! ### Pointwise descriptions of the bitmap operations -/

/-- For a non-negative descriptor, `FD_ISSET` tests bit `fd % 8` of byte
`fd / 8`. -/
theorem FD_ISSET_eq (fd : Int) (h : 0 ≤ fd) (s : fdSetBytes) :
    FD_ISSET fd s = (s (fd.toNat / 8) &&& (1 <<< (fd.toNat % 8)) != 0) := by
  unfold FD_ISSET
  rw [if_pos h]

/-- For a non-negative descriptor, `FD_SET` ors the bit into byte `fd / 8`
and leaves every other byte alone. -/
theorem FD_SET_apply (fd : Int) (h : 0 ≤ fd) (s : fdSetBytes) (idx : Nat) :
    FD_SET fd s idx =
      if idx = fd.toNat / 8 then s idx ||| (1 <<< (fd.toNat % 8)) else s idx := by
  unfold FD_SET
  rw [if_pos h]

/-- For a non-negative descriptor, `FD_CLR` masks the bit out of byte
`fd / 8` and leaves every other byte alone. -/
theorem FD_CLR_apply (fd : Int) (h : 0 ≤ fd) (s : fdSetBytes) (idx : Nat) :
    FD_CLR fd s idx =
      if idx = fd.toNat / 8 then s idx &&& (255 ^^^ (1 <<< (fd.toNat % 8))) else s idx := by
  unfold FD_CLR
  rw [if_pos h]

/-- Testing any bit of a zero byte yields false. -/
theorem bit_test_zero (l : Nat) : ((0 &&& (1 <<< l)) != 0) = false := by
  simp [Nat.zero_and]

/-- Setting a bit in a zero byte makes that bit test true. -/
theorem bit_test_self : ∀ k, k < 8 →
    (((0 ||| (1 <<< k)) &&& (1 <<< k)) != 0) = true := by decide

/-- Setting one bit in a zero byte leaves every other bit false. -/
theorem bit_test_other : ∀ k, k < 8 → ∀ l, l < 8 → k ≠ l →
    (((0 ||| (1 <<< k)) &&& (1 <<< l)) != 0) = false := by decide

/-- Clearing the bit that was just set makes its test false again. -/
theorem bit_test_cleared : ∀ k, k < 8 →
    ((((0 ||| (1 <<< k)) &&& (255 ^^^ (1 <<< k))) &&& (1 <<< k)) != 0) = false := by decide

/-! ### Claims -/

/-- C4: for every current record whose `cmsg_len` is smaller than
`size_of(cmsghdr)`, `CMSG_NXTHDR` returns null, regardless of how much
buffer space remains after the current record. -/
theorem malformed_record_stops_traversal (m : msghdr) (cmsg cmsg_len : Nat)
    (h : cmsg_len < sizeof_cmsghdr) :
    CMSG_NXTHDR m cmsg cmsg_len = none := by
  simp only [CMSG_NXTHDR]
  rw [if_pos h]

/-- Witness for C4: a record claiming length 0 stops traversal even inside
a million-byte control buffer. -/
theorem malformed_record_stops_traversal_witness :
    CMSG_NXTHDR ⟨0, 1000000⟩ 0 0 = none :=
  malformed_record_stops_traversal ⟨0, 1000000⟩ 0 0 (by decide)

/-- C6: `CMSG_FIRSTHDR` returns null exactly when
`msg_controllen < size_of(cmsghdr)`, and otherwise returns the
`msg_control` address; the decision reads only the envelope, never the
control buffer. -/
theorem firsthdr_short_buffer_guard (m : msghdr) :
    CMSG_FIRSTHDR m =
      if m.msg_controllen < sizeof_cmsghdr then none else some m.msg_control := rfl

/-- C10: for every envelope with `msg_controllen >= size_of(cmsghdr)`,
`CMSG_FIRSTHDR` returns exactly the `msg_control` address, with no
validation of the buffer contents and no null check on `msg_control`. -/
theorem firsthdr_returns_control_unchecked (ctl len : Nat)
    (h : sizeof_cmsghdr ≤ len) :
    CMSG_FIRSTHDR ⟨ctl, len⟩ = some ctl := by
  unfold CMSG_FIRSTHDR
  rw [if_neg (Nat.not_lt.mpr h)]

/-- Witness for C10: a null `msg_control` with a large `msg_controllen`
yields the null address itself as the result. -/
theorem firsthdr_returns_control_unchecked_witness :
    CMSG_FIRSTHDR ⟨0, 1000⟩ = some 0 :=
  firsthdr_returns_control_unchecked 0 1000 (by decide)

/-- C7 (amended): `CMSG_ALIGN` is idempotent for every `len`, and
`CMSG_ALIGN len >= len` holds whenever `len` is at most
`2^32 - word_size`, i.e. whenever the wrapping 32-bit addition
`len + word_size - 1` does not overflow. -/
theorem align_idempotent_and_monotone :
    (∀ len, CMSG_ALIGN (CMSG_ALIGN len) = CMSG_ALIGN len) ∧
    (∀ len, len ≤ 2 ^ 32 - c_long_size → len ≤ CMSG_ALIGN len) :=
  ⟨CMSG_ALIGN_idem, fun len h => CMSG_ALIGN_ge len h⟩

/-- Witness for C7: both parts at `len = 20`. -/
theorem align_idempotent_and_monotone_witness :
    CMSG_ALIGN (CMSG_ALIGN 20) = CMSG_ALIGN 20 ∧ 20 ≤ CMSG_ALIGN 20 :=
  ⟨align_idempotent_and_monotone.1 20,
   align_idempotent_and_monotone.2 20 (by decide)⟩

/-- Counterexample for C7 as stated: at the maximal `c_uint` value the
wrapping addition makes the alignment collapse to 0, so
`CMSG_ALIGN len >= len` fails. -/
theorem align_not_ge_near_max : CMSG_ALIGN 4294967295 < 4294967295 := by decide

/-- C1 (amended): for every record with `cmsg_len >= size_of(cmsghdr)`,
`CMSG_NXTHDR` computes the candidate `cmsg + CMSG_ALIGN(cmsg_len)` (with
`cmsg_len` truncated to 32 bits by the cast) and returns null exactly when
the candidate plus `size_of(cmsghdr)` bytes exceeds `buffer_end`, or the
candidate plus `CMSG_ALIGN(cmsg_len)` exceeds `buffer_end`; otherwise it
returns the candidate. -/
theorem nxthdr_candidate_characterization (m : msghdr) (cmsg cmsg_len : Nat)
    (h : sizeof_cmsghdr ≤ cmsg_len) :
    CMSG_NXTHDR m cmsg cmsg_len =
      if cmsg + CMSG_ALIGN (cmsg_len % 2 ^ 32) + sizeof_cmsghdr >
            m.msg_control + m.msg_controllen ∨
          cmsg + CMSG_ALIGN (cmsg_len % 2 ^ 32) + CMSG_ALIGN (cmsg_len % 2 ^ 32) >
            m.msg_control + m.msg_controllen
      then none
      else some (cmsg + CMSG_ALIGN (cmsg_len % 2 ^ 32)) := by
  simp only [CMSG_NXTHDR]
  rw [if_neg (Nat.not_lt.mpr h)]

/-- Witness for C1: the characterisation at a record of length 16 inside a
64-byte buffer. -/
theorem nxthdr_candidate_characterization_witness :
    CMSG_NXTHDR ⟨0, 64⟩ 0 16 =
      if 0 + CMSG_ALIGN (16 % 2 ^ 32) + sizeof_cmsghdr > 0 + 64 ∨
          0 + CMSG_ALIGN (16 % 2 ^ 32) + CMSG_ALIGN (16 % 2 ^ 32) > 0 + 64
      then none
      else some (0 + CMSG_ALIGN (16 % 2 ^ 32)) :=
  nxthdr_candidate_characterization ⟨0, 64⟩ 0 16 (by decide)

/-- Counterexample for C1 as stated: with `cmsg_len = 2^32 - 1` the
alignment wraps to 0, the candidate is the current address itself, and
neither of the claimed rejection conditions (candidate plus ONE BYTE past
the end, or candidate plus the aligned length past the end) holds, yet the
code returns null, because the check actually adds a whole `cmsghdr`. -/
theorem nxthdr_one_byte_reading_fails :
    sizeof_cmsghdr ≤ 4294967295 ∧
    CMSG_NXTHDR ⟨0, 8⟩ 0 4294967295 = none ∧
    ¬ (0 + CMSG_ALIGN (4294967295 % 2 ^ 32) + 1 > 0 + 8 ∨
       0 + CMSG_ALIGN (4294967295 % 2 ^ 32) + CMSG_ALIGN (4294967295 % 2 ^ 32) >
         0 + 8) := by decide

/-- C3: every address returned by `CMSG_FIRSTHDR`, and every address
returned by `CMSG_NXTHDR` for a current record at or after
`msg_control`, lies within the declared control buffer with room for a
complete header: it is at least `msg_control` and ends at most at
`msg_control + msg_controllen`. -/
theorem traversal_stays_in_bounds (m : msghdr) (cmsg cmsg_len r r2 : Nat) :
    (CMSG_FIRSTHDR m = some r →
      m.msg_control ≤ r ∧
      r + sizeof_cmsghdr ≤ m.msg_control + m.msg_controllen) ∧
    (m.msg_control ≤ cmsg → CMSG_NXTHDR m cmsg cmsg_len = some r2 →
      m.msg_control ≤ r2 ∧
      r2 + sizeof_cmsghdr ≤ m.msg_control + m.msg_controllen) := by
  constructor
  · intro h
    obtain ⟨hr, hlen⟩ := CMSG_FIRSTHDR_some m r h
    subst hr
    omega
  · intro hcur h
    obtain ⟨hr, _, hbound, _⟩ := CMSG_NXTHDR_some m cmsg cmsg_len r2 h
    constructor
    · rw [hr]; omega
    · exact hbound

/-- Witness for C3: both bounds at a buffer based at address 100 of length
32, whose first record has length 16. -/
theorem traversal_stays_in_bounds_witness :
    ((100 : Nat) ≤ 100 ∧ 100 + sizeof_cmsghdr ≤ 100 + 32) ∧
    ((100 : Nat) ≤ 116 ∧ 116 + sizeof_cmsghdr ≤ 100 + 32) :=
  ⟨(traversal_stays_in_bounds ⟨100, 32⟩ 100 16 100 116).1 (by decide),
   (traversal_stays_in_bounds ⟨100, 32⟩ 100 16 100 116).2 (by decide) (by decide)⟩

/-- C2 (amended): for two back-to-back records (the second starting where
the first's aligned length ends, the buffer ending at the second record's
end, both lengths valid and small enough not to wrap), `CMSG_NXTHDR` on
the second record always returns null, and `CMSG_NXTHDR` on the first
record returns the second exactly when `CMSG_ALIGN(first.cmsg_len)` is at
most `second.cmsg_len` — otherwise the second bounds check, which reuses
the FIRST record's aligned length, rejects it. In the concrete 32-byte
scenario (record A with `cmsg_len = 20` at offset 0, record B with
`cmsg_len = 12` at offset `CMSG_ALIGN 20 = 24`), traversal yields exactly
[A] and then null, not [A, B]. -/
theorem two_back_to_back_records (base lenA lenB : Nat)
    (hA : sizeof_cmsghdr ≤ lenA) (hA32 : lenA ≤ 2 ^ 32 - 8)
    (hB : sizeof_cmsghdr ≤ lenB) (hB32 : lenB ≤ 2 ^ 32 - 8) :
    CMSG_NXTHDR ⟨base, CMSG_ALIGN lenA + lenB⟩ (base + CMSG_ALIGN lenA) lenB = none ∧
    (CMSG_ALIGN lenA ≤ lenB →
      CMSG_NXTHDR ⟨base, CMSG_ALIGN lenA + lenB⟩ base lenA =
        some (base + CMSG_ALIGN lenA)) ∧
    (lenB < CMSG_ALIGN lenA →
      CMSG_NXTHDR ⟨base, CMSG_ALIGN lenA + lenB⟩ base lenA = none) ∧
    cmsgRecords (fun a => if a = 0 then 20 else if a = 24 then 12 else 0)
      ⟨0, 32⟩ 3 = [0] := by
  have hpow : (2 : Nat) ^ 32 = 4294967296 := by norm_num
  have hs : sizeof_cmsghdr = 16 := rfl
  have hgA : lenA ≤ CMSG_ALIGN lenA := CMSG_ALIGN_ge lenA hA32
  have hgB : lenB ≤ CMSG_ALIGN lenB := CMSG_ALIGN_ge lenB hB32
  have hmodA : lenA % 2 ^ 32 = lenA := Nat.mod_eq_of_lt (by omega)
  have hmodB : lenB % 2 ^ 32 = lenB := Nat.mod_eq_of_lt (by omega)
  refine ⟨?_, ?_, ?_, by decide⟩
  · simp only [CMSG_NXTHDR, hmodB]
    split_ifs with h1 h2
    · rfl
    · rfl
    · exfalso
      push_neg at h2
      obtain ⟨h2a, _⟩ := h2
      omega
  · intro hfits
    simp only [CMSG_NXTHDR, hmodA]
    split_ifs with h1 h2
    · omega
    · exfalso
      rcases h2 with h2 | h2 <;> omega
    · rfl
  · intro hnofit
    simp only [CMSG_NXTHDR, hmodA]
    split_ifs with h1 h2
    · rfl
    · rfl
    · exfalso
      push_neg at h2
      obtain ⟨_, h2b⟩ := h2
      omega

/-- Witness for C2: two adjacent records of length 16 in a 32-byte buffer;
the first step reaches the second record and the second step returns
null. -/
theorem two_back_to_back_records_witness :
    CMSG_NXTHDR ⟨0, CMSG_ALIGN 16 + 16⟩ (0 + CMSG_ALIGN 16) 16 = none ∧
    CMSG_NXTHDR ⟨0, CMSG_ALIGN 16 + 16⟩ 0 16 = some (0 + CMSG_ALIGN 16) :=
  ⟨(two_back_to_back_records 0 16 16 (by decide) (by decide) (by decide)
      (by decide)).1,
   (two_back_to_back_records 0 16 16 (by decide) (by decide) (by decide)
      (by decide)).2.1 (by decide)⟩

/-- Counterexample for C2 as stated: in the 32-byte scenario with record A
of `cmsg_len = 20` and record B of `cmsg_len = 12` at offset 24,
`CMSG_NXTHDR` on A returns null (the candidate 24 plus one header is 40,
past the 32-byte end), so traversal yields [A], never reaching B. -/
theorem two_record_scenario_fails :
    CMSG_NXTHDR ⟨0, 32⟩ 0 20 = none ∧
    cmsgRecords (fun a => if a = 0 then 20 else if a = 24 then 12 else 0)
      ⟨0, 32⟩ 3 = [0] := by decide

/-- C5 (amended): a non-null `CMSG_NXTHDR` result is at least
`size_of(cmsghdr)` bytes past the current record, provided the current
record's `cmsg_len` is at most `2^32 - 8` (so the truncating 32-bit
alignment neither drops high bits nor wraps); consequently, when every
readable `cmsg_len` satisfies that bound, iterating the step function from
`CMSG_FIRSTHDR` reaches null within `msg_controllen / size_of(cmsghdr)`
steps. -/
theorem traversal_progress_and_bounded_steps :
    (∀ (m : msghdr) (cmsg cmsg_len r : Nat), cmsg_len ≤ 2 ^ 32 - 8 →
      CMSG_NXTHDR m cmsg cmsg_len = some r → cmsg + sizeof_cmsghdr ≤ r) ∧
    (∀ (load : Nat → Nat) (m : msghdr), (∀ a, load a ≤ 2 ^ 32 - 8) →
      (cmsgStep load m)^[m.msg_controllen / sizeof_cmsghdr]
        (CMSG_FIRSTHDR m) = none) := by
  constructor
  · exact fun m cmsg cmsg_len r h1 h2 =>
      CMSG_NXTHDR_progress m cmsg cmsg_len r h1 h2
  · intro load m hload
    rcases hres : (cmsgStep load m)^[m.msg_controllen / sizeof_cmsghdr]
        (CMSG_FIRSTHDR m) with _ | a
    · rfl
    · exfalso
      obtain ⟨h1, h2⟩ := cmsgStep_iterate_invariant load m hload _ a hres
      have hs : sizeof_cmsghdr = 16 := rfl
      rw [hs] at h1 h2
      omega

/-- Witness for C5: progress at a 16-byte record, and termination after
`32 / 16 = 2` steps on a 32-byte buffer whose records all claim length
16. -/
theorem traversal_progress_and_bounded_steps_witness :
    0 + sizeof_cmsghdr ≤ 16 ∧
    (cmsgStep (fun _ => 16) ⟨0, 32⟩)^[(32 : Nat) / sizeof_cmsghdr]
      (CMSG_FIRSTHDR ⟨0, 32⟩) = none :=
  ⟨traversal_progress_and_bounded_steps.1 ⟨0, 32⟩ 0 16 16 (by decide) (by decide),
   traversal_progress_and_bounded_steps.2 (fun _ => 16) ⟨0, 32⟩
     (fun a => by show (16 : Nat) ≤ 2 ^ 32 - 8; decide)⟩

/-- Counterexample for C5 as stated: a record claiming
`cmsg_len = 2^32` passes the malformed-length guard (it is a 64-bit
value), but the cast to `c_uint` truncates it to 0, so `CMSG_NXTHDR`
returns the current address itself — a non-null result that advances by 0
bytes — and the iterated traversal is still running after
`msg_controllen / size_of(cmsghdr)` steps. -/
theorem traversal_progress_fails_on_truncated_len :
    CMSG_NXTHDR ⟨0, 32⟩ 0 4294967296 = some 0 ∧
    ¬ (0 + sizeof_cmsghdr ≤ 0) ∧
    (cmsgStep (fun _ => 4294967296) ⟨0, 32⟩)^[(32 : Nat) / sizeof_cmsghdr]
      (CMSG_FIRSTHDR ⟨0, 32⟩) = some 0 := by decide

/-- C8: starting from a zeroed bitmap, every in-range index tests false;
after `FD_SET i` the index `i` tests true while every other in-range index
still tests false; after `FD_CLR i` the index `i` tests false again; and
`FD_ZERO` applied to a fully-set bitmap makes every in-range index test
false. -/
theorem fd_bitmap_set_clear_isset (i j : Int)
    (hi0 : 0 ≤ i) (hi : i < 1024) (hj0 : 0 ≤ j) (hj : j < 1024)
    (hne : j ≠ i) :
    FD_ISSET i zeroSet = false ∧
    FD_ISSET i (FD_SET i zeroSet) = true ∧
    FD_ISSET j (FD_SET i zeroSet) = false ∧
    FD_ISSET i (FD_CLR i (FD_SET i zeroSet)) = false ∧
    FD_ISSET i (FD_ZERO fullSet) = false := by
  have hka : i.toNat % 8 < 8 := Nat.mod_lt _ (by norm_num)
  have hkb : j.toNat % 8 < 8 := Nat.mod_lt _ (by norm_num)
  refine ⟨?_, ?_, ?_, ?_, ?_⟩
  · rw [FD_ISSET_eq i hi0]
    exact bit_test_zero _
  · rw [FD_ISSET_eq i hi0, FD_SET_apply i hi0, if_pos rfl]
    exact bit_test_self _ hka
  · rw [FD_ISSET_eq j hj0, FD_SET_apply i hi0]
    by_cases hdiv : j.toNat / 8 = i.toNat / 8
    · rw [if_pos hdiv]
      have hmod : i.toNat % 8 ≠ j.toNat % 8 := by omega
      exact bit_test_other _ hka _ hkb hmod
    · rw [if_neg hdiv]
      exact bit_test_zero _
  · rw [FD_ISSET_eq i hi0, FD_CLR_apply i hi0, if_pos rfl,
      FD_SET_apply i hi0, if_pos rfl]
    exact bit_test_cleared _ hka
  · rw [FD_ISSET_eq i hi0]
    have hidx : i.toNat / 8 < sizeof_fd_set := by
      have hsz : sizeof_fd_set = 128 := rfl
      omega
    have hzero : FD_ZERO fullSet (i.toNat / 8) = 0 := by
      unfold FD_ZERO
      rw [if_pos hidx]
    rw [hzero]
    exact bit_test_zero _

/-- Witness for C8: the full set/clear/test round trip at descriptor 5,
with descriptor 9 as the untouched other index. -/
theorem fd_bitmap_set_clear_isset_witness :
    FD_ISSET 5 zeroSet = false ∧
    FD_ISSET 5 (FD_SET 5 zeroSet) = true ∧
    FD_ISSET 9 (FD_SET 5 zeroSet) = false ∧
    FD_ISSET 5 (FD_CLR 5 (FD_SET 5 zeroSet)) = false ∧
    FD_ISSET 5 (FD_ZERO fullSet) = false :=
  fd_bitmap_set_clear_isset 5 9 (by decide) (by decide) (by decide)
    (by decide) (by decide)

/-- C9: for every negative descriptor index, `FD_SET` and `FD_CLR` return
the bitmap byte-for-byte unchanged and `FD_ISSET` returns false, with no
error signalled. -/
theorem fd_negative_noop (fd : Int) (h : fd < 0) (s : fdSetBytes) :
    FD_SET fd s = s ∧ FD_CLR fd s = s ∧ FD_ISSET fd s = false := by
  have hn : ¬ (0 ≤ fd) := by omega
  refine ⟨?_, ?_, ?_⟩
  · unfold FD_SET
    rw [if_neg hn]
  · unfold FD_CLR
    rw [if_neg hn]
  · unfold FD_ISSET
    rw [if_neg hn]

/-- Witness for C9: descriptor -1 on the zeroed bitmap. -/
theorem fd_negative_noop_witness :
    FD_SET (-1) zeroSet = zeroSet ∧ FD_CLR (-1) zeroSet = zeroSet ∧
    FD_ISSET (-1) zeroSet = false :=
  fd_negative_noop (-1) (by decide) zeroSet
